import Mathlib

/-
  Verification of the smart-hostel management system's cross-entity
  business rules: room occupancy, student status, movement ledger,
  visitor log, fee ledger, and the dashboard views.

  The backend operations (room allocation, movement recording, fee
  payment, visitor checkout, room creation) are modelled from the
  specification, since the server implementation is not part of the
  frontend sources; the dashboard and rooms-view rendering logic is
  embedded directly from frontend/src/App.js.
-/

namespace SmartHostel

/-- Error taxonomy of the backend API (spec section 7). -/
inductive HError where
  | validationError
  | notFoundError
  | conflictError
  | capacityExceededError
  | invalidStateError
  deriving DecidableEq

/-- A room record: number, floor, capacity, occupied count and status
(one of "available", "occupied", "maintenance"). -/
structure Room where
  id : String
  room_number : String
  floor : Int
  capacity : Int
  occupied : Int
  status : String
  deriving DecidableEq

/-- A student record: assigned room reference (nullable) and in/out status. -/
structure Student where
  id : String
  name : String
  room_id : Option String
  status : String
  deriving DecidableEq

/-- A movement-ledger entry: student reference, action ("check_in" or
"check_out"), server timestamp and optional note. -/
structure Movement where
  id : String
  student_id : String
  student_name : String
  action : String
  timestamp : Nat
  note : Option String
  deriving DecidableEq

/-- A visitor record with check-in/check-out timestamps and status
("checked_in" or "checked_out"). -/
structure Visitor where
  id : String
  name : String
  phone : String
  visiting_student_id : String
  visiting_student_name : String
  purpose : String
  check_in : Nat
  check_out : Option Nat
  status : String
  deriving DecidableEq

/-- A fee record with amount, due date and status ("pending", "paid",
"overdue"). -/
structure Fee where
  id : String
  student_id : String
  student_name : String
  fee_type : String
  amount : Int
  due_date : Nat
  status : String
  deriving DecidableEq

/-- A maintenance ticket with status ("pending", "in_progress", "completed"). -/
structure Ticket where
  id : String
  student_id : String
  student_name : String
  room_number : String
  issue_type : String
  description : String
  status : String
  created_at : Nat
  deriving DecidableEq

/-- The whole persisted state: one collection per entity. -/
structure HState where
  rooms : List Room
  students : List Student
  movements : List Movement
  visitors : List Visitor
  fees : List Fee
  tickets : List Ticket
  deriving DecidableEq

/-- Look a room up by id. -/
def findRoom (st : HState) (rid : String) : Option Room :=
  st.rooms.find? (fun r => r.id == rid)

/-- Look a student up by id. -/
def findStudent (st : HState) (sid : String) : Option Student :=
  st.students.find? (fun s => s.id == sid)

/-- Modelled from the spec: the room status recomputed on allocation
(occupied == capacity means "occupied", else "available"); the server
implementation is not under the frontend sources. -/
def roomStatusOf (occupied capacity : Int) : String :=
  if occupied = capacity then "occupied" else "available"

/-- Modelled from the spec: createRoom fails with ValidationError if
capacity is at most 0 or the room number already exists; otherwise it
creates the room with occupied = 0 and status "available". -/
def createRoom (st : HState) (rid number : String) (floor capacity : Int) :
    Except HError HState :=
  if capacity ≤ 0 then .error .validationError
  else if st.rooms.any (fun r => r.room_number == number) then .error .validationError
  else .ok { st with rooms := st.rooms ++ [⟨rid, number, floor, capacity, 0, "available"⟩] }

/-- Modelled from the spec: allocate fails with NotFoundError if either id
is unknown, fails with CapacityExceededError if occupied is at least
capacity, else increments occupied, sets the student's room reference and
recomputes the room status. -/
def allocate (st : HState) (rid sid : String) : Except HError HState :=
  match findRoom st rid with
  | none => .error .notFoundError
  | some room =>
    match findStudent st sid with
    | none => .error .notFoundError
    | some _ =>
      if room.capacity ≤ room.occupied then .error .capacityExceededError
      else
        .ok { st with
          rooms := st.rooms.map (fun r =>
            if r.id == rid then
              { r with occupied := room.occupied + 1,
                       status := roomStatusOf (room.occupied + 1) room.capacity }
            else r),
          students := st.students.map (fun s =>
            if s.id == sid then { s with room_id := some rid } else s) }

/-- Modelled from the spec: recordMovement fails with NotFoundError if the
student is unknown; otherwise it appends an immutable entry with a
server-assigned timestamp and sets the student's status to "in" for
check_in, "out" otherwise. -/
def recordMovement (st : HState) (mid sid sname action : String)
    (note : Option String) (now : Nat) : Except HError HState :=
  match findStudent st sid with
  | none => .error .notFoundError
  | some _ =>
      .ok { st with
        movements := st.movements ++ [⟨mid, sid, sname, action, now, note⟩],
        students := st.students.map (fun s =>
          if s.id == sid then
            { s with status := if action == "check_in" then "in" else "out" }
          else s) }

/-- Modelled from the spec: create a student via self-registration or a
warden request; fails with ConflictError on a duplicate identifier; the
new student has no room and status "out". -/
def createStudent (st : HState) (sid name : String) : Except HError HState :=
  if (findStudent st sid).isSome then .error .conflictError
  else .ok { st with students := st.students ++ [⟨sid, name, none, "out"⟩] }

/-- Modelled from the spec: generic student update; only contact fields
are writable, never the status or the room reference. -/
def updateStudent (st : HState) (sid name : String) : Except HError HState :=
  match findStudent st sid with
  | none => .error .notFoundError
  | some _ =>
      .ok { st with students := st.students.map (fun s =>
        if s.id == sid then { s with name := name } else s) }

/-- Modelled from the spec: explicit student deletion; history records
are not cascade-deleted. -/
def deleteStudent (st : HState) (sid : String) : Except HError HState :=
  match findStudent st sid with
  | none => .error .notFoundError
  | some _ =>
      .ok { st with students := st.students.filter (fun s => !(s.id == sid)) }

/-- Modelled from the spec: visitor check-in creates an entry with status
"checked_in" and check-in timestamp now. -/
def checkInVisitor (st : HState) (vid name phone hostId hostName purpose : String)
    (now : Nat) : HState :=
  { st with visitors :=
      st.visitors ++ [⟨vid, name, phone, hostId, hostName, purpose, now, none, "checked_in"⟩] }

/-- Modelled from the spec: visitor checkout fails with NotFoundError if
unknown, with InvalidStateError if already checked out, else sets the
check-out timestamp to now and the status to "checked_out". -/
def checkoutVisitor (st : HState) (vid : String) (now : Nat) : Except HError HState :=
  match st.visitors.find? (fun v => v.id == vid) with
  | none => .error .notFoundError
  | some v =>
    if v.status == "checked_out" then .error .invalidStateError
    else .ok { st with visitors := st.visitors.map (fun x =>
        if x.id == vid then { x with check_out := some now, status := "checked_out" } else x) }

/-- Modelled from the spec: create a fee record with status "pending". -/
def createFee (st : HState) (fid sid sname ftype : String) (amount : Int)
    (due : Nat) : HState :=
  { st with fees := st.fees ++ [⟨fid, sid, sname, ftype, amount, due, "pending"⟩] }

/-- Modelled from the spec: paying a fee fails with NotFoundError if
unknown, with InvalidStateError if already paid, else sets the status to
"paid". -/
def payFee (st : HState) (fid : String) : Except HError HState :=
  match st.fees.find? (fun f => f.id == fid) with
  | none => .error .notFoundError
  | some f =>
    if f.status == "paid" then .error .invalidStateError
    else .ok { st with fees := st.fees.map (fun x =>
        if x.id == fid then { x with status := "paid" } else x) }

/-- Modelled from the spec: listOverdue returns the fees whose due date is
strictly before the query time and whose status is not "paid"; the
classification is computed at query time, nothing is persisted. -/
def listOverdue (st : HState) (now : Nat) : List Fee :=
  st.fees.filter (fun f => decide (f.due_date < now) && !(f.status == "paid"))

/-- Modelled from the spec: create a maintenance ticket with status "pending". -/
def createTicket (st : HState) (tid sid sname roomNumber issueType description : String)
    (now : Nat) : HState :=
  { st with tickets :=
      st.tickets ++ [⟨tid, sid, sname, roomNumber, issueType, description, "pending", now⟩] }

/-- Modelled from the spec: ticket status update fails with NotFoundError
if unknown, with ValidationError if the new status is outside the enum;
any enum status is reachable from any other. -/
def updateTicketStatus (st : HState) (tid status : String) : Except HError HState :=
  match st.tickets.find? (fun t => t.id == tid) with
  | none => .error .notFoundError
  | some _ =>
    if status == "pending" || status == "in_progress" || status == "completed" then
      .ok { st with tickets := st.tickets.map (fun t =>
        if t.id == tid then { t with status := status } else t) }
    else .error .validationError

/-- The operations of the system, as one request each. -/
inductive Op where
  | createRoom (rid number : String) (floor capacity : Int)
  | createStudent (sid name : String)
  | updateStudent (sid name : String)
  | deleteStudent (sid : String)
  | allocate (rid sid : String)
  | recordMovement (mid sid sname action : String) (note : Option String) (now : Nat)
  | checkInVisitor (vid name phone hostId hostName purpose : String) (now : Nat)
  | checkoutVisitor (vid : String) (now : Nat)
  | createTicket (tid sid sname roomNumber issueType description : String) (now : Nat)
  | updateTicketStatus (tid status : String)
  | createFee (fid sid sname ftype : String) (amount : Int) (due : Nat)
  | payFee (fid : String)
  deriving DecidableEq

/-- Run one operation, returning the classified failure or the new state. -/
def runOp (st : HState) (op : Op) : Except HError HState :=
  match op with
  | .createRoom rid number floor capacity => createRoom st rid number floor capacity
  | .createStudent sid name => createStudent st sid name
  | .updateStudent sid name => updateStudent st sid name
  | .deleteStudent sid => deleteStudent st sid
  | .allocate rid sid => allocate st rid sid
  | .recordMovement mid sid sname action note now => recordMovement st mid sid sname action note now
  | .checkInVisitor vid name phone hostId hostName purpose now =>
      .ok (checkInVisitor st vid name phone hostId hostName purpose now)
  | .checkoutVisitor vid now => checkoutVisitor st vid now
  | .createTicket tid sid sname roomNumber issueType description now =>
      .ok (createTicket st tid sid sname roomNumber issueType description now)
  | .updateTicketStatus tid status => updateTicketStatus st tid status
  | .createFee fid sid sname ftype amount due => .ok (createFee st fid sid sname ftype amount due)
  | .payFee fid => payFee st fid

/-- The state after one operation: a failed operation leaves the state
unmodified (no partial writes). -/
def applyOp (st : HState) (op : Op) : HState :=
  match runOp st op with
  | .ok st2 => st2
  | .error _ => st

/-- Allocate a sequence of students to the same room, one request at a
time, stopping at the first failure. -/
def allocateMany (st : HState) (rid : String) (sids : List String) :
    Except HError HState :=
  match sids with
  | [] => .ok st
  | sid :: rest =>
    match allocate st rid sid with
    | .error e => .error e
    | .ok st2 => allocateMany st2 rid rest

/-- Append a sequence of movement-ledger entries for one student, one
request at a time, stopping at the first failure. -/
def recordMany (st : HState) (sid sname : String) (actions : List String)
    (now : Nat) : Except HError HState :=
  match actions with
  | [] => .ok st
  | a :: rest =>
    match recordMovement st "m" sid sname a none now with
    | .error e => .error e
    | .ok st2 => recordMany st2 sid sname rest now

/-- Number of students whose assigned-room reference points to the room
with the given id. -/
def assignedCount (students : List Student) (rid : String) : Nat :=
  students.countP (fun s => s.room_id == some rid)

/-- The Room invariant of the data model: occupied between 0 and
capacity, status "occupied" exactly when the room is full (otherwise
"available" unless administratively set to "maintenance"), and occupied
equals the number of students assigned to the room. -/
def roomInv (students : List Student) (r : Room) : Prop :=
  0 ≤ r.occupied ∧ r.occupied ≤ r.capacity ∧
  (r.status = "occupied" ↔ r.capacity ≤ r.occupied) ∧
  (r.occupied < r.capacity → r.status = "available" ∨ r.status = "maintenance") ∧
  r.occupied = (assignedCount students r.id : Int)

instance (students : List Student) (r : Room) : Decidable (roomInv students r) := by
  unfold roomInv; infer_instance

/-- The Room invariant, for every room of the state. -/
def invariantAll (st : HState) : Prop :=
  ∀ r ∈ st.rooms, roomInv st.students r

instance (st : HState) : Decidable (invariantAll st) := by
  unfold invariantAll; infer_instance

/-- A well-formed state: distinct room ids, distinct student ids, and the
Room invariant for every room. -/
def goodState (st : HState) : Prop :=
  (st.rooms.map Room.id).Nodup ∧ (st.students.map Student.id).Nodup ∧ invariantAll st

instance (st : HState) : Decidable (goodState st) := by
  unfold goodState; infer_instance

/-- Side conditions under which an operation keeps the data model
consistent: creations use ids that are fresh, and allocation and deletion
target only students with no current room assignment. -/
def opGuard (st : HState) (op : Op) : Prop :=
  match op with
  | .createRoom rid _ _ _ =>
      (∀ r ∈ st.rooms, r.id ≠ rid) ∧ (∀ s ∈ st.students, s.room_id ≠ some rid)
  | .createStudent sid _ => ∀ s ∈ st.students, s.id ≠ sid
  | .deleteStudent sid => ∀ s ∈ st.students, s.id = sid → s.room_id = none
  | .allocate _ sid => ∀ s ∈ st.students, s.id = sid → s.room_id = none
  | _ => True

instance (st : HState) (op : Op) : Decidable (opGuard st op) := by
  unfold opGuard; cases op <;> infer_instance

/-- Searching a mapped list, when the map preserves the search predicate,
finds the image of the original hit. -/
theorem find?_map_pres {α : Type} (p : α → Bool) (g : α → α)
    (hp : ∀ x, p (g x) = p x) (l : List α) :
    (l.map g).find? p = (l.find? p).map g := by
  induction l with
  | nil => rfl
  | cons a t ih =>
    by_cases h : p a = true
    · rw [List.map_cons, List.find?_cons_of_pos _ ((hp a).trans h),
        List.find?_cons_of_pos _ h, Option.map_some']
    · rw [List.map_cons, List.find?_cons_of_neg _ (by rw [hp a]; exact h),
        List.find?_cons_of_neg _ h, ih]

/-- Mapping a list with an id-preserving function keeps the list of ids. -/
theorem map_map_pres {α β : Type} (f : α → β) (g : α → α)
    (hg : ∀ x, f (g x) = f x) (l : List α) :
    (l.map g).map f = l.map f := by
  rw [List.map_map]
  exact List.map_congr_left (fun a _ => hg a)

/-- Counting over a list is unchanged by pointwise-equal predicates. -/
theorem countP_congr_mem {α : Type} (p q : α → Bool) (l : List α)
    (h : ∀ x ∈ l, p x = q x) : l.countP p = l.countP q := by
  induction l with
  | nil => rfl
  | cons a t ih =>
    rw [List.countP_cons, List.countP_cons, h a (List.mem_cons_self a t),
      ih (fun x hx => h x (List.mem_cons_of_mem a hx))]

/-- With distinct keys, a successful key search means exactly one element
matches the key. -/
theorem countP_key_eq_one {α : Type} (f : α → String) (v : String) (l : List α)
    (hnd : (l.map f).Nodup) (x0 : α)
    (hfind : l.find? (fun x => f x == v) = some x0) :
    l.countP (fun x => f x == v) = 1 := by
  induction l with
  | nil => simp at hfind
  | cons a t ih =>
    rw [List.map_cons, List.nodup_cons] at hnd
    by_cases h : (f a == v) = true
    · have hzero : t.countP (fun x => f x == v) = 0 := by
        rw [List.countP_eq_zero]
        intro x hx hxv
        apply hnd.1
        rw [beq_iff_eq.mp h, ← beq_iff_eq.mp hxv]
        exact List.mem_map.mpr ⟨x, hx, rfl⟩
      rw [List.countP_cons, hzero, if_pos h]
    · rw [List.find?_cons_of_neg (p := fun x => f x == v) _ h] at hfind
      rw [List.countP_cons, if_neg h, ih hnd.2 hfind]

/-- With distinct keys, any member matching the key of a successful
search is the found element. -/
theorem eq_of_mem_nodup_find? {α : Type} (f : α → String) (v : String) (l : List α)
    (hnd : (l.map f).Nodup) (x0 : α)
    (hfind : l.find? (fun x => f x == v) = some x0)
    (x : α) (hx : x ∈ l) (hfx : f x = v) : x = x0 := by
  induction l with
  | nil => simp at hfind
  | cons a t ih =>
    rw [List.map_cons, List.nodup_cons] at hnd
    by_cases h : (f a == v) = true
    · rw [List.find?_cons_of_pos (p := fun x => f x == v) _ h] at hfind
      cases List.mem_cons.mp hx with
      | inl hxa => rw [hxa]; exact Option.some.inj hfind
      | inr hxt =>
        exact absurd (List.mem_map.mpr ⟨x, hxt, hfx.trans (beq_iff_eq.mp h).symm⟩) hnd.1
    · rw [List.find?_cons_of_neg (p := fun x => f x == v) _ h] at hfind
      cases List.mem_cons.mp hx with
      | inl hxa => exact absurd (beq_iff_eq.mpr (hxa ▸ hfx)) h
      | inr hxt => exact ih hnd.2 hfind hxt

/-- Counting after updating the single element that matches a selector:
the count changes by the contribution change of that element. -/
theorem countP_map_update {α : Type} (sel p : α → Bool) (g : α → α)
    (hg : ∀ x, sel x = false → g x = x) (l : List α) (x0 : α)
    (hfind : l.find? sel = some x0) (hone : l.countP sel = 1) :
    (l.map g).countP p + (if p x0 = true then 1 else 0)
      = l.countP p + (if p (g x0) = true then 1 else 0) := by
  induction l with
  | nil => simp at hfind
  | cons a t ih =>
    by_cases h : sel a = true
    · rw [List.find?_cons_of_pos _ h] at hfind
      have hx0 : x0 = a := (Option.some.inj hfind).symm
      have hzero : t.countP sel = 0 := by
        rw [List.countP_cons, if_pos h] at hone
        omega
      have htg : t.map g = t := by
        have h2 : ∀ x ∈ t, g x = x := fun x hx =>
          hg x (Bool.eq_false_iff.mpr (List.countP_eq_zero.mp hzero x hx))
        calc t.map g = t.map (fun x => x) := List.map_congr_left h2
        _ = t := by simp
      rw [List.map_cons, htg, List.countP_cons, List.countP_cons, hx0]
      omega
    · rw [List.find?_cons_of_neg _ h] at hfind
      rw [List.countP_cons, if_neg h, Nat.add_zero] at hone
      have := ih hfind hone
      rw [List.map_cons, hg a (Bool.eq_false_iff.mpr h), List.countP_cons,
        List.countP_cons]
      omega

/-- A successful allocation: the room below capacity gains one occupant
with the recomputed status, and every findable student stays findable. -/
theorem allocate_success (st : HState) (rid sid : String) (room : Room)
    (hr : findRoom st rid = some room) (hs : (findStudent st sid).isSome)
    (hcap : room.occupied < room.capacity) :
    ∃ st2, allocate st rid sid = .ok st2 ∧
      findRoom st2 rid
        = some { room with occupied := room.occupied + 1,
                           status := roomStatusOf (room.occupied + 1) room.capacity } ∧
      ∀ sid2, (findStudent st sid2).isSome → (findStudent st2 sid2).isSome := by
  obtain ⟨s0, hs0⟩ := Option.isSome_iff_exists.mp hs
  have hne : ¬ room.capacity ≤ room.occupied := not_le.mpr hcap
  have hrfind : st.rooms.find? (fun r => r.id == rid) = some room := hr
  have hrid : (room.id == rid) = true :=
    List.find?_some (p := fun r : Room => r.id == rid) hrfind
  have halloc : allocate st rid sid = .ok
      { st with
        rooms := st.rooms.map (fun r =>
          if r.id == rid then
            { r with occupied := room.occupied + 1,
                     status := roomStatusOf (room.occupied + 1) room.capacity }
          else r),
        students := st.students.map (fun s =>
          if s.id == sid then { s with room_id := some rid } else s) } := by
    simp only [allocate, hr, hs0, if_neg hne]
  refine ⟨_, halloc, ?_, ?_⟩
  · unfold findRoom at hr ⊢
    rw [find?_map_pres (fun r => r.id == rid)
      (fun r => if r.id == rid then
        { r with occupied := room.occupied + 1,
                 status := roomStatusOf (room.occupied + 1) room.capacity } else r)
      (fun r => by by_cases h : (r.id == rid) = true <;> simp [h]) st.rooms, hr,
      Option.map_some']
    simp [hrid]
  · intro sid2 hsome
    unfold findStudent at hsome ⊢
    rw [find?_map_pres (fun s => s.id == sid2)
      (fun s => if s.id == sid then { s with room_id := some rid } else s)
      (fun s => by by_cases h : (s.id == sid) = true <;> simp [h]) st.students]
    obtain ⟨y, hy⟩ := Option.isSome_iff_exists.mp hsome
    rw [hy]
    rfl

/-- Allocating a block of students into one room: each allocation
succeeds and the room's occupancy and recomputed status track the number
of allocations performed. -/
theorem allocateMany_spec (rid : String) (C : Int) (sids : List String) :
    ∀ (st : HState) (room : Room),
      findRoom st rid = some room →
      room.capacity = C →
      room.occupied + (sids.length : Int) ≤ C →
      room.status = (if C ≤ room.occupied then "occupied" else "available") →
      (∀ sid ∈ sids, (findStudent st sid).isSome) →
      ∃ st2 room2, allocateMany st rid sids = .ok st2 ∧
        findRoom st2 rid = some room2 ∧
        room2.capacity = C ∧
        room2.occupied = room.occupied + (sids.length : Int) ∧
        room2.status = (if C ≤ room2.occupied then "occupied" else "available") := by
  induction sids with
  | nil =>
    intro st room hr hcap hle hstat hex
    exact ⟨st, room, rfl, hr, hcap, by simp, by simpa using hstat⟩
  | cons a t ih =>
    intro st room hr hcap hle hstat hex
    rw [List.length_cons] at hle
    have hlt : room.occupied < room.capacity := by
      rw [hcap]
      push_cast at hle
      omega
    obtain ⟨st1, hst1, hr1, hpres⟩ :=
      allocate_success st rid a room hr (hex a (List.mem_cons_self a t)) hlt
    set room1 : Room := { room with occupied := room.occupied + 1, status := roomStatusOf (room.occupied + 1) room.capacity } with hroom1
    have hcap1 : room1.capacity = C := hcap
    have hocc1 : room1.occupied = room.occupied + 1 := rfl
    have hle1 : room1.occupied + (t.length : Int) ≤ C := by
      rw [hocc1]
      omega
    have hstat1 : room1.status = (if C ≤ room1.occupied then "occupied" else "available") := by
      rw [hroom1]
      simp only [roomStatusOf, hcap]
      have h1 : room.occupied + (1 : Int) ≤ C := by omega
      by_cases h : room.occupied + 1 = C
      · rw [if_pos h, if_pos (le_of_eq h.symm)]
      · rw [if_neg h, if_neg (fun hc => h (le_antisymm h1 hc))]
    have hex1 : ∀ sid ∈ t, (findStudent st1 sid).isSome := fun sid hsid =>
      hpres sid (hex sid (List.mem_cons_of_mem a hsid))
    obtain ⟨st2, room2, hmany, hr2, hc2, ho2, hs2⟩ :=
      ih st1 room1 hr1 hcap1 hle1 hstat1 hex1
    refine ⟨st2, room2, ?_, hr2, hc2, ?_, hs2⟩
    · simp only [allocateMany, hst1, hmany]
    · rw [ho2, hocc1, List.length_cons]
      push_cast
      ring

/-- C1: For every valid capacity C, allocating C distinct students one at
a time to a freshly created room (occupied = 0, status "available")
leaves the room's status "available" after each of the first C-1
allocations, sets it to "occupied" exactly at the C-th allocation, and
increments the occupied count by one on each successful allocation. -/
theorem fresh_room_fills_at_capacity (C : Nat) (hC : 0 < C) (st : HState)
    (rid : String) (room : Room) (sids : List String)
    (hr : findRoom st rid = some room)
    (hcap : room.capacity = (C : Int)) (hocc : room.occupied = 0)
    (hstat : room.status = "available")
    (hlen : sids.length = C) (hdistinct : sids.Nodup)
    (hex : ∀ sid ∈ sids, (findStudent st sid).isSome)
    (k : Nat) (hk : k ≤ C) :
    ∃ st2 room2, allocateMany st rid (sids.take k) = .ok st2 ∧
      findRoom st2 rid = some room2 ∧
      room2.occupied = (k : Int) ∧
      room2.status = (if k = C then "occupied" else "available") := by
  have hlenk : ((sids.take k).length : Int) = (k : Int) := by
    rw [List.length_take, hlen]
    push_cast [Nat.min_eq_left hk]
    rfl
  obtain ⟨st2, room2, hmany, hr2, _, ho2, hs2⟩ :=
    allocateMany_spec rid (C : Int) (sids.take k) st room hr hcap
      (by rw [hlenk, hocc]; push_cast; omega)
      (by rw [hstat, hocc, if_neg (by push_cast; omega)])
      (fun sid hsid => hex sid (List.take_subset k sids hsid))
  refine ⟨st2, room2, hmany, hr2, ?_, ?_⟩
  · rw [ho2, hocc, hlenk, zero_add]
  · rw [hs2, ho2, hocc, hlenk, zero_add]
    by_cases h : k = C
    · rw [if_pos h, if_pos (by rw [h])]
    · rw [if_neg h, if_neg (fun hc => h (le_antisymm (by exact_mod_cast hk) (by exact_mod_cast hc)))]

/-- A fresh room of capacity 2. -/
def roomW : Room := ⟨"r1", "101", 1, 2, 0, "available"⟩

/-- A state with one fresh room and two unassigned students. -/
def stW : HState :=
  ⟨[roomW], [⟨"s1", "Asha", none, "out"⟩, ⟨"s2", "Banu", none, "out"⟩], [], [], [], []⟩

/-- Witness for C1: at capacity 2, the second allocation fills the room. -/
theorem fresh_room_fills_at_capacity_witness :
    ∃ st2 room2, allocateMany stW "r1" (["s1", "s2"].take 2) = .ok st2 ∧
      findRoom st2 "r1" = some room2 ∧
      room2.occupied = ((2 : Nat) : Int) ∧
      room2.status = (if 2 = 2 then "occupied" else "available") :=
  fresh_room_fills_at_capacity 2 (by decide) stW "r1" roomW ["s1", "s2"]
    (by decide) (by decide) (by decide) (by decide) (by decide) (by decide)
    (by decide) 2 (by decide)

/-- C2: Allocating to a room whose occupied count equals its capacity
fails with CapacityExceededError, and the state after the failed request
is exactly the state before it, so both the Room record and the targeted
Student record are unchanged. -/
theorem allocate_full_room_fails (st : HState) (rid sid : String) (room : Room)
    (hr : findRoom st rid = some room) (hs : (findStudent st sid).isSome)
    (hfull : room.occupied = room.capacity) :
    runOp st (.allocate rid sid) = .error .capacityExceededError ∧
    applyOp st (.allocate rid sid) = st := by
  obtain ⟨s0, hs0⟩ := Option.isSome_iff_exists.mp hs
  have herr : allocate st rid sid = .error .capacityExceededError := by
    simp only [allocate, hr, hs0, if_pos (le_of_eq hfull.symm)]
  refine ⟨?_, ?_⟩
  · simpa only [runOp] using herr
  · simp only [applyOp, runOp, herr]

/-- A state whose single room is at capacity, with its occupant. -/
def stF : HState :=
  ⟨[⟨"r1", "101", 1, 1, 1, "occupied"⟩], [⟨"s1", "Asha", some "r1", "in"⟩], [], [], [], []⟩

/-- Witness for C2: allocating into the full room fails and changes nothing. -/
theorem allocate_full_room_fails_witness :
    runOp stF (.allocate "r1" "s1") = .error .capacityExceededError ∧
    applyOp stF (.allocate "r1" "s1") = stF :=
  allocate_full_room_fails stF "r1" "s1" ⟨"r1", "101", 1, 1, 1, "occupied"⟩
    (by decide) (by decide) (by decide)

/-- A successful movement append: the student's status becomes "in" for
check_in and "out" otherwise, and all findable students stay findable. -/
theorem recordMovement_success (st : HState) (mid sid sname action : String)
    (note : Option String) (now : Nat) (s0 : Student)
    (hs0 : findStudent st sid = some s0) :
    ∃ st2, recordMovement st mid sid sname action note now = .ok st2 ∧
      findStudent st2 sid
        = some { s0 with status := if action == "check_in" then "in" else "out" } ∧
      ∀ sid2, (findStudent st sid2).isSome → (findStudent st2 sid2).isSome := by
  have hs0find : st.students.find? (fun s => s.id == sid) = some s0 := hs0
  have hsid : (s0.id == sid) = true :=
    List.find?_some (p := fun s : Student => s.id == sid) hs0find
  have hrec : recordMovement st mid sid sname action note now
      = .ok { st with
          movements := st.movements ++ [⟨mid, sid, sname, action, now, note⟩],
          students := st.students.map (fun s =>
            if s.id == sid then { s with status := if action == "check_in" then "in" else "out" } else s) } := by
    simp only [recordMovement, hs0]
  refine ⟨_, hrec, ?_, ?_⟩
  · unfold findStudent
    rw [find?_map_pres (fun s => s.id == sid)
      (fun s => if s.id == sid then { s with status := if action == "check_in" then "in" else "out" } else s)
      (fun s => by by_cases h : (s.id == sid) = true <;> simp [h]) st.students,
      hs0find, Option.map_some']
    simp [hsid]
  · intro sid2 hsome
    unfold findStudent at hsome ⊢
    rw [find?_map_pres (fun s => s.id == sid2)
      (fun s => if s.id == sid then { s with status := if action == "check_in" then "in" else "out" } else s)
      (fun s => by by_cases h : (s.id == sid) = true <;> simp [h]) st.students]
    obtain ⟨y, hy⟩ := Option.isSome_iff_exists.mp hsome
    rw [hy]
    rfl

/-- C3: after any non-empty sequence of movement-ledger appends for one
student, the student's status equals the action of the last appended
entry, regardless of all earlier entries. -/
theorem movement_last_write_wins (sid sname : String) (now : Nat) :
    ∀ (actions : List String) (hne : actions ≠ []) (st : HState),
      (findStudent st sid).isSome →
      ∃ st2 s2, recordMany st sid sname actions now = .ok st2 ∧
        findStudent st2 sid = some s2 ∧
        s2.status = (if actions.getLast hne == "check_in" then "in" else "out") := by
  intro actions
  induction actions with
  | nil => intro hne; exact absurd rfl hne
  | cons a t ih =>
    intro hne st hs
    obtain ⟨s0, hs0⟩ := Option.isSome_iff_exists.mp hs
    obtain ⟨st1, hst1, hfind1, hpres⟩ :=
      recordMovement_success st "m" sid sname a none now s0 hs0
    cases t with
    | nil =>
      refine ⟨st1, _, ?_, hfind1, rfl⟩
      simp only [recordMany, hst1]
    | cons b t2 =>
      have hne2 : b :: t2 ≠ [] := by simp
      obtain ⟨st2, s2, hmany, hfind2, hstat2⟩ :=
        ih hne2 st1 (hpres sid (by rw [hs0]; rfl))
      refine ⟨st2, s2, ?_, hfind2, ?_⟩
      · show (match recordMovement st "m" sid sname a none now with
          | Except.error e => Except.error e
          | Except.ok st3 => recordMany st3 sid sname (b :: t2) now) = Except.ok st2
        rw [hst1]
        exact hmany
      · rw [hstat2, List.getLast_cons hne2]

/-- A state holding one student with no movement history. -/
def stM : HState := ⟨[], [⟨"s1", "Asha", none, "out"⟩], [], [], [], []⟩

/-- Witness for C3: two consecutive check_ins followed by a check_out
leave the student "out". -/
theorem movement_last_write_wins_witness :
    ∃ st2 s2,
      recordMany stM "s1" "Asha" ["check_in", "check_in", "check_out"] 5 = .ok st2 ∧
      findStudent st2 "s1" = some s2 ∧
      s2.status = (if ["check_in", "check_in", "check_out"].getLast (by decide) == "check_in"
                   then "in" else "out") :=
  movement_last_write_wins "s1" "Asha" 5 ["check_in", "check_in", "check_out"]
    (by decide) stM (by decide)

/-- C5: paying an already-paid fee fails with InvalidStateError and the
fee record, status and amount included, is unchanged. -/
theorem payFee_twice_fails (st : HState) (fid : String) (f : Fee)
    (hf : st.fees.find? (fun x => x.id == fid) = some f)
    (hpaid : f.status = "paid") :
    runOp st (.payFee fid) = .error .invalidStateError ∧
    applyOp st (.payFee fid) = st ∧
    (applyOp st (.payFee fid)).fees.find? (fun x => x.id == fid) = some f := by
  have herr : payFee st fid = .error .invalidStateError := by
    simp [payFee, hf, hpaid]
  refine ⟨by simpa only [runOp] using herr, ?_, ?_⟩
  · simp only [applyOp, runOp, herr]
  · simp only [applyOp, runOp, herr]
    exact hf

/-- A state with a single already-paid fee. -/
def stP : HState := ⟨[], [], [], [], [⟨"f1", "s1", "Asha", "hostel_fee", 500, 3, "paid"⟩], []⟩

/-- Witness for C5: re-paying the paid fee fails and changes nothing. -/
theorem payFee_twice_fails_witness :
    runOp stP (.payFee "f1") = .error .invalidStateError ∧
    applyOp stP (.payFee "f1") = stP ∧
    (applyOp stP (.payFee "f1")).fees.find? (fun x => x.id == "f1")
      = some ⟨"f1", "s1", "Asha", "hostel_fee", 500, 3, "paid"⟩ :=
  payFee_twice_fails stP "f1" ⟨"f1", "s1", "Asha", "hostel_fee", 500, 3, "paid"⟩
    (by decide) (by decide)

/-- C6: a fee record is returned by listOverdue exactly when its due date
is strictly before the query time and its status is not "paid"; the
returned record is the stored record itself, with its status field as
persisted. -/
theorem listOverdue_spec (st : HState) (now : Nat) (f : Fee) :
    f ∈ listOverdue st now ↔ f ∈ st.fees ∧ f.due_date < now ∧ f.status ≠ "paid" := by
  simp [listOverdue, List.mem_filter, and_assoc]

/-- C7: visitor checkout fails with NotFoundError on an unknown id, fails
with InvalidStateError when the visitor is already checked out leaving
the state unchanged, and otherwise stamps the check-out time and status;
after a successful checkout any further checkout fails and leaves the
record unchanged, so the check-out timestamp is set exactly once. -/
theorem checkoutVisitor_spec (st : HState) (vid : String) (now now2 : Nat) :
    (st.visitors.find? (fun v => v.id == vid) = none →
      runOp st (.checkoutVisitor vid now) = .error .notFoundError) ∧
    (∀ v, st.visitors.find? (fun x => x.id == vid) = some v →
      (v.status = "checked_out" →
        runOp st (.checkoutVisitor vid now) = .error .invalidStateError ∧
        applyOp st (.checkoutVisitor vid now) = st) ∧
      (v.status ≠ "checked_out" →
        ∃ st2, runOp st (.checkoutVisitor vid now) = .ok st2 ∧
          st2.visitors.find? (fun x => x.id == vid)
            = some { v with check_out := some now, status := "checked_out" } ∧
          runOp st2 (.checkoutVisitor vid now2) = .error .invalidStateError ∧
          applyOp st2 (.checkoutVisitor vid now2) = st2)) := by
  refine ⟨?_, ?_⟩
  · intro hnone
    simp only [runOp, checkoutVisitor, hnone]
  · intro v hv
    have hvid : (v.id == vid) = true :=
      List.find?_some (p := fun x : Visitor => x.id == vid) hv
    refine ⟨?_, ?_⟩
    · intro hout
      have herr : checkoutVisitor st vid now = .error .invalidStateError := by
        simp [checkoutVisitor, hv, hout]
      exact ⟨by simpa only [runOp] using herr, by simp only [applyOp, runOp, herr]⟩
    · intro hnotout
      have hok : checkoutVisitor st vid now
          = .ok { st with
              visitors := st.visitors.map (fun x =>
                if x.id == vid then { x with check_out := some now, status := "checked_out" } else x) } := by
        simp [checkoutVisitor, hv, hnotout]
      have hfind2 : (st.visitors.map (fun x =>
          if x.id == vid then { x with check_out := some now, status := "checked_out" } else x)).find?
            (fun x => x.id == vid)
          = some { v with check_out := some now, status := "checked_out" } := by
        rw [find?_map_pres (fun x => x.id == vid)
          (fun x => if x.id == vid then { x with check_out := some now, status := "checked_out" } else x)
          (fun x => by by_cases h : (x.id == vid) = true <;> simp [h]) st.visitors,
          hv, Option.map_some']
        simp [hvid]
      have herr2 : ∀ st3 : HState, st3.visitors.find? (fun x => x.id == vid)
            = some { v with check_out := some now, status := "checked_out" } →
          checkoutVisitor st3 vid now2 = .error .invalidStateError := by
        intro st3 h3
        simp [checkoutVisitor, h3]
      have herr2x := herr2 { st with visitors := st.visitors.map (fun x =>
        if x.id == vid then { x with check_out := some now, status := "checked_out" } else x) } hfind2
      refine ⟨_, by simpa only [runOp] using hok, hfind2, by simpa only [runOp] using herr2x,
        by simp only [applyOp, runOp, herr2x]⟩

/-- A state with one checked-in visitor. -/
def stV : HState :=
  ⟨[], [], [], [⟨"v1", "Venk", "99", "s1", "Asha", "visit", 2, none, "checked_in"⟩], [], []⟩

/-- Witness for C7: checking the active visitor out succeeds once and the
second attempt fails without modifying the record. -/
theorem checkoutVisitor_spec_witness :
    ∃ st2, runOp stV (.checkoutVisitor "v1" 7) = .ok st2 ∧
      st2.visitors.find? (fun x => x.id == "v1")
        = some ⟨"v1", "Venk", "99", "s1", "Asha", "visit", 2, some 7, "checked_out"⟩ ∧
      runOp st2 (.checkoutVisitor "v1" 9) = .error .invalidStateError ∧
      applyOp st2 (.checkoutVisitor "v1" 9) = st2 :=
  ((checkoutVisitor_spec stV "v1" 7 9).2
      ⟨"v1", "Venk", "99", "s1", "Asha", "visit", 2, none, "checked_in"⟩
      (by decide)).2 (by decide)

/-- C8: createRoom fails with ValidationError exactly when the capacity
is not positive or the room number is already taken; in every other case
it creates the room with occupied 0 and status "available". -/
theorem createRoom_spec (st : HState) (rid number : String) (floor capacity : Int) :
    (runOp st (.createRoom rid number floor capacity) = .error .validationError ↔
      (capacity ≤ 0 ∨ ∃ r ∈ st.rooms, r.room_number = number)) ∧
    ((0 < capacity ∧ ∀ r ∈ st.rooms, r.room_number ≠ number) →
      runOp st (.createRoom rid number floor capacity)
        = .ok { st with rooms := st.rooms ++ [⟨rid, number, floor, capacity, 0, "available"⟩] }) := by
  have hany : st.rooms.any (fun r => r.room_number == number) = true ↔
      ∃ r ∈ st.rooms, r.room_number = number := by
    simp [List.any_eq_true]
  refine ⟨?_, ?_⟩
  · by_cases h1 : capacity ≤ 0
    · simp [runOp, createRoom, h1]
    · by_cases h2 : st.rooms.any (fun r => r.room_number == number) = true
      · simp [runOp, createRoom, h1, h2, hany.mp h2]
      · simp only [runOp, createRoom, if_neg h1, if_neg h2]
        constructor
        · intro hcontra
          exact absurd hcontra (by simp)
        · intro hor
          rcases hor with hcap | hex
          · exact absurd hcap h1
          · exact absurd (hany.mpr hex) h2
  · rintro ⟨hpos, hfresh⟩
    have h1 : ¬ capacity ≤ 0 := not_le.mpr hpos
    have h2 : ¬ st.rooms.any (fun r => r.room_number == number) = true := fun hc => by
      obtain ⟨r, hr, hnum⟩ := hany.mp hc
      exact hfresh r hr hnum
    simp only [runOp, createRoom, if_neg h1, if_neg h2]

/-- Witness for C8: creating a room in the empty state succeeds with
occupied 0 and status "available". -/
theorem createRoom_spec_witness :
    runOp (⟨[], [], [], [], [], []⟩ : HState) (.createRoom "r1" "101" 1 2)
      = .ok { (⟨[], [], [], [], [], []⟩ : HState) with
          rooms := [] ++ [⟨"r1", "101", 1, 2, 0, "available"⟩] } :=
  (createRoom_spec ⟨[], [], [], [], [], []⟩ "r1" "101" 1 2).2
    ⟨by decide, by decide⟩

/-- A room as rendered by the frontend rooms view (App.js renderRooms). -/
structure UIRoom where
  id : String
  room_number : String
  floor : Int
  capacity : Int
  occupied : Int
  status : String
  deriving DecidableEq

/-- A student as rendered by the frontend: room_number is the student's
assigned room, absent when unassigned. -/
structure UIStudent where
  id : String
  name : String
  room_number : Option String
  status : String
  deriving DecidableEq

/-- JavaScript truthiness of the student's room_number field: a missing
value and the empty string are falsy. -/
def truthyStr : Option String → Bool
  | none => false
  | some s => !(s == "")

/-- From App.js renderRooms: the allocation dropdown is rendered when the
user's role is "warden", the room's status is "available" and the room's
occupied count is strictly below its capacity. -/
def showAllocControl (role : String) (room : UIRoom) : Bool :=
  role == "warden" && (room.status == "available" && decide (room.occupied < room.capacity))

/-- From App.js renderRooms: the dropdown offers the students whose
room_number is not set. -/
def allocDropdownOptions (students : List UIStudent) : List UIStudent :=
  students.filter (fun s => !(truthyStr s.room_number))

/-- C9: the allocation control is rendered only for a warden on an
available room below capacity, hence never for a full or maintenance
room, and its dropdown offers exactly the students with no assigned
room. -/
theorem ui_allocation_guard (role : String) (room : UIRoom)
    (students : List UIStudent) (s : UIStudent) :
    (showAllocControl role room = true ↔
      role = "warden" ∧ room.status = "available" ∧ room.occupied < room.capacity) ∧
    (showAllocControl role room = true →
      room.status ≠ "maintenance" ∧ ¬ room.capacity ≤ room.occupied) ∧
    (s ∈ allocDropdownOptions students ↔
      s ∈ students ∧ truthyStr s.room_number = false) := by
  have hiff : showAllocControl role room = true ↔
      role = "warden" ∧ room.status = "available" ∧ room.occupied < room.capacity := by
    simp [showAllocControl]
  refine ⟨hiff, ?_, ?_⟩
  · intro h
    obtain ⟨-, hstat, hlt⟩ := hiff.mp h
    refine ⟨?_, not_le.mpr hlt⟩
    rw [hstat]
    decide
  · simp [allocDropdownOptions, List.mem_filter]

/-- A half-occupied available room, as the frontend renders it. -/
def uiRoomW : UIRoom := ⟨"r1", "101", 1, 2, 1, "available"⟩

/-- An unassigned student, as the frontend renders it. -/
def uiStuW : UIStudent := ⟨"s1", "Asha", none, "out"⟩

/-- Witness for C9: the rendered control for a warden on the half-full
available room targets a room that is neither full nor in maintenance. -/
theorem ui_allocation_guard_witness :
    uiRoomW.status ≠ "maintenance" ∧ ¬ uiRoomW.capacity ≤ uiRoomW.occupied :=
  (ui_allocation_guard "warden" uiRoomW [] uiStuW).2.1 (by decide)

/-- From App.js renderDashboard: the Recent Activity panel renders
movements.slice(0, 5). -/
def recentActivity (movements : List Movement) : List Movement :=
  movements.take 5

/-- C10: the Recent Activity panel shows at most the first 5 entries of
the recent-movements list, in the order the query returned them. -/
theorem dashboard_recent_activity (ms : List Movement) :
    (recentActivity ms).length ≤ 5 ∧ ∃ rest, ms = recentActivity ms ++ rest := by
  refine ⟨?_, ms.drop 5, (List.take_append_drop 5 ms).symm⟩
  rw [recentActivity, List.length_take]
  exact min_le_left _ _

/-- A failed operation leaves the state unchanged. -/
theorem applyOp_error (st : HState) (op : Op) (e : HError)
    (h : runOp st op = .error e) : applyOp st op = st := by
  simp only [applyOp, h]

/-- A successful operation moves the state to the returned one. -/
theorem applyOp_ok (st : HState) (op : Op) (st2 : HState)
    (h : runOp st op = .ok st2) : applyOp st op = st2 := by
  simp only [applyOp, h]

/-- Well-formedness only depends on the rooms and students collections. -/
theorem goodState_eq_collections (st st2 : HState) (hr : st2.rooms = st.rooms)
    (hs : st2.students = st.students) (h : goodState st) : goodState st2 := by
  obtain ⟨h1, h2, h3⟩ := h
  refine ⟨hr ▸ h1, hs ▸ h2, fun r hmem => ?_⟩
  rw [hs]
  exact h3 r (hr ▸ hmem)

/-- The Room invariant transfers along an equality of assigned counts. -/
theorem roomInv_students_congr (students students2 : List Student) (r : Room)
    (hcnt : assignedCount students2 r.id = assignedCount students r.id)
    (h : roomInv students r) : roomInv students2 r := by
  obtain ⟨h0, h1, h2, h3, h4⟩ := h
  exact ⟨h0, h1, h2, h3, by rw [hcnt]; exact h4⟩

/-- A map that leaves every room reference alone leaves the assigned
counts alone. -/
theorem assignedCount_map_pres (g : Student → Student)
    (hg : ∀ s, (g s).room_id = s.room_id) (students : List Student) (rid : String) :
    assignedCount (students.map g) rid = assignedCount students rid := by
  unfold assignedCount
  rw [List.countP_map]
  exact countP_congr_mem _ _ _ (fun x _ => by simp [Function.comp, hg])

/-- Removing a student that has no room assignment leaves the assigned
counts alone. -/
theorem assignedCount_filter_pres (students : List Student) (sid : String)
    (hnone : ∀ s ∈ students, s.id = sid → s.room_id = none) (rid : String) :
    assignedCount (students.filter (fun s => !(s.id == sid))) rid
      = assignedCount students rid := by
  unfold assignedCount
  rw [List.countP_filter]
  refine countP_congr_mem _ _ _ (fun x hx => ?_)
  by_cases h : (x.id == sid) = true
  · have hxnone : x.room_id = none := hnone x hx (beq_iff_eq.mp h)
    simp [h, hxnone]
  · simp [h]

/-- The empty state. -/
def st0 : HState := ⟨[], [], [], [], [], []⟩

/-- A reachable state: two rooms of capacity 1 and one student, allocated
into the first room. -/
def stReach : HState :=
  applyOp (applyOp (applyOp (applyOp st0 (.createRoom "A" "101" 1 1))
    (.createRoom "B" "102" 1 1)) (.createStudent "s1" "Asha")) (.allocate "A" "s1")

/-- C4 counterexample: in the reachable state stReach every room satisfies
the Room invariant, yet the system operation that allocates the already
assigned student s1 into room B succeeds and afterwards room A's occupied
count no longer equals the number of students assigned to it: the claim
that every operation preserves the invariant fails. -/
theorem invariant_not_preserved_by_realloc :
    invariantAll stReach ∧ ¬ invariantAll (applyOp stReach (.allocate "B" "s1")) := by
  decide

/-- C4 (amended): in a state with pairwise-distinct room ids and student
ids where every room satisfies the Room invariant, every operation that
respects its side condition (fresh ids on creation, allocation and
deletion only of students with no current room assignment) leads again to
a state whose rooms all satisfy the invariant. -/
theorem invariant_preserved (st : HState) (op : Op)
    (hgood : goodState st) (hg : opGuard st op) :
    goodState (applyOp st op) := by
  obtain ⟨hndr, hnds, hinv⟩ := hgood
  cases op with
  | createRoom rid number floor capacity =>
    obtain ⟨hfresh, hnoref⟩ := hg
    cases hrun : runOp st (Op.createRoom rid number floor capacity) with
    | error e => rw [applyOp_error st _ e hrun]; exact ⟨hndr, hnds, hinv⟩
    | ok st2 =>
      rw [applyOp_ok st _ st2 hrun]
      by_cases h1 : capacity ≤ 0
      · simp [runOp, createRoom, h1] at hrun
      · by_cases h2 : st.rooms.any (fun r => r.room_number == number) = true
        · simp [runOp, createRoom, h1, h2] at hrun
        · simp only [runOp, createRoom, if_neg h1, if_neg h2] at hrun
          obtain rfl := Except.ok.inj hrun
          refine ⟨?_, hnds, ?_⟩
          · rw [List.map_append, List.nodup_append]
            refine ⟨hndr, by simp, ?_⟩
            intro a ha hb
            simp only [List.map_cons, List.map_nil, List.mem_singleton] at hb
            obtain ⟨r, hrmem, hrid⟩ := List.mem_map.mp ha
            exact hfresh r hrmem (by rw [hrid, hb])
          · intro r hrmem
            cases List.mem_append.mp hrmem with
            | inl hmem => exact hinv r hmem
            | inr hnew =>
              rw [List.mem_singleton] at hnew
              subst hnew
              refine ⟨le_refl 0, le_of_lt (not_le.mp h1),
                iff_of_false (show ¬ ("available" : String) = "occupied" by decide) h1,
                fun _ => Or.inl rfl, ?_⟩
              have hzero : assignedCount st.students rid = 0 := by
                unfold assignedCount
                rw [List.countP_eq_zero]
                intro s hsmem hsref
                exact hnoref s hsmem (beq_iff_eq.mp hsref)
              rw [hzero]
              rfl
  | createStudent sid name =>
    cases hrun : runOp st (Op.createStudent sid name) with
    | error e => rw [applyOp_error st _ e hrun]; exact ⟨hndr, hnds, hinv⟩
    | ok st2 =>
      rw [applyOp_ok st _ st2 hrun]
      by_cases h1 : (findStudent st sid).isSome
      · simp [runOp, createStudent, h1] at hrun
      · simp only [runOp, createStudent, if_neg h1] at hrun
        obtain rfl := Except.ok.inj hrun
        refine ⟨hndr, ?_, ?_⟩
        · rw [List.map_append, List.nodup_append]
          refine ⟨hnds, by simp, ?_⟩
          intro a ha hb
          simp only [List.map_cons, List.map_nil, List.mem_singleton] at hb
          obtain ⟨s, hsmem, hsid⟩ := List.mem_map.mp ha
          exact hg s hsmem (by rw [hsid, hb])
        · intro r hrmem
          refine roomInv_students_congr st.students _ r ?_ (hinv r hrmem)
          have hnewzero :
              List.countP (fun s => s.room_id == some r.id)
                [(⟨sid, name, none, "out"⟩ : Student)] = 0 := rfl
          unfold assignedCount
          rw [List.countP_append, hnewzero, Nat.add_zero]
  | updateStudent sid name =>
    cases hrun : runOp st (Op.updateStudent sid name) with
    | error e => rw [applyOp_error st _ e hrun]; exact ⟨hndr, hnds, hinv⟩
    | ok st2 =>
      rw [applyOp_ok st _ st2 hrun]
      cases hs : findStudent st sid with
      | none => simp [runOp, updateStudent, hs] at hrun
      | some s0 =>
        simp only [runOp, updateStudent, hs] at hrun
        obtain rfl := Except.ok.inj hrun
        refine ⟨hndr, ?_, ?_⟩
        · rw [map_map_pres Student.id _
            (fun s => by by_cases h : (s.id == sid) = true <;> simp [h])]
          exact hnds
        · intro r hrmem
          exact roomInv_students_congr st.students _ r
            (assignedCount_map_pres _
              (fun s => by by_cases h : (s.id == sid) = true <;> simp [h]) st.students r.id)
            (hinv r hrmem)
  | deleteStudent sid =>
    cases hrun : runOp st (Op.deleteStudent sid) with
    | error e => rw [applyOp_error st _ e hrun]; exact ⟨hndr, hnds, hinv⟩
    | ok st2 =>
      rw [applyOp_ok st _ st2 hrun]
      cases hs : findStudent st sid with
      | none => simp [runOp, deleteStudent, hs] at hrun
      | some s0 =>
        simp only [runOp, deleteStudent, hs] at hrun
        obtain rfl := Except.ok.inj hrun
        refine ⟨hndr, ?_, ?_⟩
        · exact hnds.sublist ((List.filter_sublist st.students).map Student.id)
        · intro r hrmem
          exact roomInv_students_congr st.students _ r
            (assignedCount_filter_pres st.students sid hg r.id) (hinv r hrmem)
  | allocate rid sid =>
    cases hrun : runOp st (Op.allocate rid sid) with
    | error e => rw [applyOp_error st _ e hrun]; exact ⟨hndr, hnds, hinv⟩
    | ok st2 =>
      rw [applyOp_ok st _ st2 hrun]
      cases hr : findRoom st rid with
      | none => simp [runOp, allocate, hr] at hrun
      | some room =>
        cases hs : findStudent st sid with
        | none => simp [runOp, allocate, hr, hs] at hrun
        | some s0 =>
          by_cases hcap : room.capacity ≤ room.occupied
          · simp [runOp, allocate, hr, hs, hcap] at hrun
          · simp only [runOp, allocate, hr, hs, if_neg hcap] at hrun
            obtain rfl := Except.ok.inj hrun
            have hrfind : st.rooms.find? (fun r => r.id == rid) = some room := hr
            have hsfind : st.students.find? (fun s => s.id == sid) = some s0 := hs
            have hridT : (room.id == rid) = true :=
              List.find?_some (p := fun r : Room => r.id == rid) hrfind
            have hsidT : (s0.id == sid) = true :=
              List.find?_some (p := fun s : Student => s.id == sid) hsfind
            have hs0mem : s0 ∈ st.students := List.mem_of_find?_eq_some hsfind
            have hs0none : s0.room_id = none := hg s0 hs0mem (beq_iff_eq.mp hsidT)
            have hone : st.students.countP (fun s => s.id == sid) = 1 :=
              countP_key_eq_one Student.id sid st.students hnds s0 hsfind
            have hcnt : ∀ ρ : String,
                (st.students.map (fun s =>
                  if s.id == sid then { s with room_id := some rid } else s)).countP
                    (fun s => s.room_id == some ρ)
                  + (if (s0.room_id == some ρ) = true then 1 else 0)
                = st.students.countP (fun s => s.room_id == some ρ)
                  + (if ((some rid : Option String) == some ρ) = true then 1 else 0) := by
              intro ρ
              have hx := countP_map_update (fun s => s.id == sid)
                (fun s => s.room_id == some ρ)
                (fun s => if s.id == sid then { s with room_id := some rid } else s)
                (fun s h => by simp [h]) st.students s0 hsfind hone
              simpa [hsidT] using hx
            refine ⟨?_, ?_, ?_⟩
            · rw [map_map_pres Room.id _
                (fun r => by by_cases h : (r.id == rid) = true <;> simp [h])]
              exact hndr
            · rw [map_map_pres Student.id _
                (fun s => by by_cases h : (s.id == sid) = true <;> simp [h])]
              exact hnds
            · intro r2 hr2mem
              obtain ⟨r, hrmem, hr2eq⟩ := List.mem_map.mp hr2mem
              obtain ⟨h0, hle, hiff, himp, hcount⟩ := hinv r hrmem
              show roomInv (st.students.map (fun s =>
                if s.id == sid then { s with room_id := some rid } else s)) r2
              have hcnt2 := hcnt r.id
              rw [hs0none] at hcnt2
              have hz1 : (if (((none : Option String) == some r.id) = true)
                  then 1 else 0) = 0 := rfl
              rw [hz1] at hcnt2
              by_cases hid : (r.id == rid) = true
              · have hreq : r = room :=
                  eq_of_mem_nodup_find? Room.id rid st.rooms hndr room hrfind r hrmem
                    (beq_iff_eq.mp hid)
                subst hreq
                have hupd : r2 = { r with occupied := r.occupied + 1, status := roomStatusOf (r.occupied + 1) r.capacity } := by
                  rw [← hr2eq, if_pos hid]
                have ho2 : r2.occupied = r.occupied + 1 := by rw [hupd]
                have hc2 : r2.capacity = r.capacity := by rw [hupd]
                have hi2 : r2.id = r.id := by rw [hupd]
                have hst2 : r2.status = roomStatusOf (r.occupied + 1) r.capacity := by
                  rw [hupd]
                have hlt : r.occupied < r.capacity := not_le.mp hcap
                have hrideq : rid = r.id := (beq_iff_eq.mp hid).symm
                have hsome : ((some rid : Option String) == some r.id) = true := by
                  rw [hrideq]
                  exact beq_iff_eq.mpr rfl
                have hz2 : (if (((some rid : Option String) == some r.id) = true)
                    then 1 else 0) = 1 := by rw [hsome]; decide
                rw [hz2] at hcnt2
                refine ⟨?_, ?_, ?_, ?_, ?_⟩
                · rw [ho2]
                  omega
                · rw [ho2, hc2]
                  omega
                · rw [hst2, hc2, ho2]
                  unfold roomStatusOf
                  by_cases he : r.occupied + 1 = r.capacity
                  · rw [if_pos he]
                    exact iff_of_true rfl (le_of_eq he.symm)
                  · rw [if_neg he]
                    exact iff_of_false (show ¬ ("available" : String) = "occupied" by decide)
                      (fun hc => he (le_antisymm (by omega) hc))
                · rw [hst2, hc2, ho2]
                  intro hlt2
                  unfold roomStatusOf
                  rw [if_neg (by omega)]
                  exact Or.inl rfl
                · rw [ho2, hi2]
                  unfold assignedCount
                  unfold assignedCount at hcount
                  omega
              · have hupd : r2 = r := by rw [← hr2eq, if_neg hid]
                rw [hupd]
                refine ⟨h0, hle, hiff, himp, ?_⟩
                have hne2 : ((some rid : Option String) == some r.id) = false := by
                  have hne3 : (rid == r.id) = false := by
                    rw [Bool.eq_false_iff]
                    intro hcontra
                    rw [beq_iff_eq.mp hcontra] at hid
                    exact hid (beq_iff_eq.mpr rfl)
                  exact hne3
                have hz2 : (if (((some rid : Option String) == some r.id) = true)
                    then 1 else 0) = 0 := by rw [hne2]; decide
                rw [hz2] at hcnt2
                unfold assignedCount
                unfold assignedCount at hcount
                omega
  | recordMovement mid sid sname action note now =>
    cases hrun : runOp st (Op.recordMovement mid sid sname action note now) with
    | error e => rw [applyOp_error st _ e hrun]; exact ⟨hndr, hnds, hinv⟩
    | ok st2 =>
      rw [applyOp_ok st _ st2 hrun]
      cases hs : findStudent st sid with
      | none => simp [runOp, recordMovement, hs] at hrun
      | some s0 =>
        simp only [runOp, recordMovement, hs] at hrun
        obtain rfl := Except.ok.inj hrun
        refine ⟨hndr, ?_, ?_⟩
        · rw [map_map_pres Student.id _
            (fun s => by by_cases h : (s.id == sid) = true <;> simp [h])]
          exact hnds
        · intro r hrmem
          exact roomInv_students_congr st.students _ r
            (assignedCount_map_pres _
              (fun s => by by_cases h : (s.id == sid) = true <;> simp [h]) st.students r.id)
            (hinv r hrmem)
  | checkInVisitor vid name phone hostId hostName purpose now =>
    cases hrun : runOp st (Op.checkInVisitor vid name phone hostId hostName purpose now) with
    | error e => rw [applyOp_error st _ e hrun]; exact ⟨hndr, hnds, hinv⟩
    | ok st2 =>
      rw [applyOp_ok st _ st2 hrun]
      simp only [runOp] at hrun
      obtain rfl := Except.ok.inj hrun
      exact goodState_eq_collections st _ rfl rfl ⟨hndr, hnds, hinv⟩
  | checkoutVisitor vid now =>
    cases hrun : runOp st (Op.checkoutVisitor vid now) with
    | error e => rw [applyOp_error st _ e hrun]; exact ⟨hndr, hnds, hinv⟩
    | ok st2 =>
      rw [applyOp_ok st _ st2 hrun]
      cases hv : st.visitors.find? (fun v => v.id == vid) with
      | none => simp [runOp, checkoutVisitor, hv] at hrun
      | some v =>
        by_cases hout : (v.status == "checked_out") = true
        · simp [runOp, checkoutVisitor, hv, hout] at hrun
        · simp only [runOp, checkoutVisitor, hv, if_neg hout] at hrun
          obtain rfl := Except.ok.inj hrun
          exact goodState_eq_collections st _ rfl rfl ⟨hndr, hnds, hinv⟩
  | createTicket tid sid sname roomNumber issueType description now =>
    cases hrun : runOp st (Op.createTicket tid sid sname roomNumber issueType description now) with
    | error e => rw [applyOp_error st _ e hrun]; exact ⟨hndr, hnds, hinv⟩
    | ok st2 =>
      rw [applyOp_ok st _ st2 hrun]
      simp only [runOp] at hrun
      obtain rfl := Except.ok.inj hrun
      exact goodState_eq_collections st _ rfl rfl ⟨hndr, hnds, hinv⟩
  | updateTicketStatus tid status =>
    cases hrun : runOp st (Op.updateTicketStatus tid status) with
    | error e => rw [applyOp_error st _ e hrun]; exact ⟨hndr, hnds, hinv⟩
    | ok st2 =>
      rw [applyOp_ok st _ st2 hrun]
      cases ht : st.tickets.find? (fun t => t.id == tid) with
      | none => simp [runOp, updateTicketStatus, ht] at hrun
      | some t0 =>
        by_cases henum : (status == "pending" || status == "in_progress"
            || status == "completed") = true
        · simp only [runOp, updateTicketStatus, ht, if_pos henum] at hrun
          obtain rfl := Except.ok.inj hrun
          exact goodState_eq_collections st _ rfl rfl ⟨hndr, hnds, hinv⟩
        · simp [runOp, updateTicketStatus, ht, henum] at hrun
  | createFee fid sid sname ftype amount due =>
    cases hrun : runOp st (Op.createFee fid sid sname ftype amount due) with
    | error e => rw [applyOp_error st _ e hrun]; exact ⟨hndr, hnds, hinv⟩
    | ok st2 =>
      rw [applyOp_ok st _ st2 hrun]
      simp only [runOp] at hrun
      obtain rfl := Except.ok.inj hrun
      exact goodState_eq_collections st _ rfl rfl ⟨hndr, hnds, hinv⟩
  | payFee fid =>
    cases hrun : runOp st (Op.payFee fid) with
    | error e => rw [applyOp_error st _ e hrun]; exact ⟨hndr, hnds, hinv⟩
    | ok st2 =>
      rw [applyOp_ok st _ st2 hrun]
      cases hf : st.fees.find? (fun f => f.id == fid) with
      | none => simp [runOp, payFee, hf] at hrun
      | some f0 =>
        by_cases hpaid : (f0.status == "paid") = true
        · simp [runOp, payFee, hf, hpaid] at hrun
        · simp only [runOp, payFee, hf, if_neg hpaid] at hrun
          obtain rfl := Except.ok.inj hrun
          exact goodState_eq_collections st _ rfl rfl ⟨hndr, hnds, hinv⟩

/-- Witness for the amended C4: in the two-student fresh-room state,
allocating an unassigned student keeps every room's invariant. -/
theorem invariant_preserved_witness :
    goodState (applyOp stW (.allocate "r1" "s1")) :=
  invariant_preserved stW (.allocate "r1" "s1") (by decide) (by decide)

end SmartHostel
